import Mathlib

/-!
Verification development for the telephony repository (src/src/Call.jsx,
src/src/socket.js): a WebRTC voice-call client whose signaling handlers are
embedded below as pure state-transition functions.

The embedding follows the source: the React component's refs and state
(`remoteId`, `callStatus`, `iceState`, `isCaller`, `peerConnectionRef`,
`localStreamRef`, audio-element `srcObject`s) become fields of `CallState`;
each socket/RTC event handler becomes a function on `CallState`.  Browser
outcomes that the code branches on (getUserMedia success, RTCPeerConnection
construction, the user's `window.confirm` answer) are passed as explicit
Boolean parameters.  The RTCPeerConnection is modelled by the slots the code
reads and writes: signaling state, local/remote description, and the list of
candidates successfully applied via `addIceCandidate`; per the WebRTC
standard, `addIceCandidate` rejects (InvalidStateError) while no remote
description is set, which the code catches and logs, dropping the candidate.
Media tracks are numbered; `track.stop()` and `pc.close()` calls are recorded
in `stoppedTracks` and `closedPcIds` so that resource release is observable.
-/

namespace Telephony

/-- Opaque session description (SDP blob); the code never inspects it. -/
structure SessionDescription where
  sdp : Nat
deriving DecidableEq

/-- Opaque ICE candidate descriptor. -/
structure IceCandidate where
  cid : Nat
deriving DecidableEq

/-- WebRTC signaling state of an RTCPeerConnection (the subset this app drives). -/
inductive SignalingState where
  | stable
  | haveLocalOffer
  | haveRemoteOffer
deriving DecidableEq

/-- Shallow model of the RTCPeerConnection slots the app reads and writes. -/
structure PeerConnection where
  pcId : Nat
  signalingState : SignalingState
  localDescription : Option SessionDescription
  remoteDescription : Option SessionDescription
  appliedCandidates : List IceCandidate
deriving DecidableEq

/-- Outbound signaling envelopes emitted through the socket
(`socket.emit('offer' | 'answer' | 'ice-candidate', {to, ...})`). -/
inductive Emit where
  | offer (dest : String) (sdp : SessionDescription)
  | answer (dest : String) (sdp : SessionDescription)
  | iceCandidate (dest : String) (candidate : IceCandidate)
deriving DecidableEq

/-- The component state of `Call.jsx`: React state and refs that the call
logic reads or writes, plus ghost fields (`stoppedTracks`, `closedPcIds`,
allocation counters) recording resource release. -/
structure CallState where
  myId : String
  remoteId : String
  callStatus : String
  iceState : String
  debugInfo : String
  isCaller : Bool
  pc : Option PeerConnection
  localStream : Option (List Nat)
  localAudioSrc : Option (List Nat)
  remoteAudioSrc : Option Nat
  stoppedTracks : List Nat
  closedPcIds : List Nat
  nextTrackId : Nat
  nextPcId : Nat
deriving DecidableEq

/-- Initial component state: `useState` initialisers and null refs. -/
def initState : CallState :=
  { myId := "", remoteId := "", callStatus := "Ready to call", iceState := "",
    debugInfo := "", isCaller := false, pc := none, localStream := none,
    localAudioSrc := none, remoteAudioSrc := none, stoppedTracks := [],
    closedPcIds := [], nextTrackId := 0, nextPcId := 0 }

/-- The pcIds released by closing an optional peer connection. -/
def pcCloseIds (o : Option PeerConnection) : List Nat :=
  o.elim [] (fun p => [p.pcId])

/-- The track ids carried by an optional media stream. -/
def streamTracks (o : Option (List Nat)) : List Nat :=
  o.elim [] id

/-- `endCall` (Call.jsx lines 630-664): close and null the peer connection,
stop every local track and null the stream ref, clear both audio elements,
and reset `remoteId`, `callStatus`, `iceState`, `debugInfo`, `isCaller`.
It is a plain unconditional reset; it never throws. -/
def endCall (s : CallState) : CallState :=
  { s with pc := none,
           closedPcIds := s.closedPcIds ++ pcCloseIds s.pc,
           localStream := none,
           stoppedTracks := s.stoppedTracks ++ streamTracks s.localStream,
           localAudioSrc := none,
           remoteAudioSrc := none,
           remoteId := "",
           callStatus := "Ready to call",
           iceState := "",
           debugInfo := "",
           isCaller := false }

/-- `handleConnect` (lines 414-418): record the relay-assigned identifier. -/
def handleConnect (id : String) (s : CallState) : CallState :=
  { s with myId := id }

/-- `startCall` (lines 563-627).  Sets `remoteId`, status `Calling...` and the
caller flag; closes any existing peer connection; creates a fresh one; acquires
the microphone; adds the track; creates and sets the local offer; emits it.
`pcOk` is the outcome of the RTCPeerConnection constructor and `mediaOk` the
outcome of `getUserMedia`; on either failure the catch block sets status
`Error` and calls `endCall`. -/
def startCall (toUserId : String) (mediaOk pcOk : Bool) (s : CallState) :
    CallState × List Emit :=
  let s1 := { s with remoteId := toUserId, callStatus := "Calling...",
                     isCaller := true }
  let s2 := { s1 with closedPcIds := s1.closedPcIds ++ pcCloseIds s1.pc }
  if pcOk then
    let p : PeerConnection :=
      { pcId := s2.nextPcId, signalingState := .stable,
        localDescription := none, remoteDescription := none,
        appliedCandidates := [] }
    let s3 := { s2 with nextPcId := s2.nextPcId + 1, pc := some p }
    if mediaOk then
      let ts : List Nat := [s3.nextTrackId]
      let s4 := { s3 with nextTrackId := s3.nextTrackId + 1,
                          localAudioSrc := some ts, localStream := some ts }
      let ofr : SessionDescription := ⟨p.pcId⟩
      let s5 := { s4 with pc := some { p with localDescription := some ofr,
                                              signalingState := .haveLocalOffer } }
      (s5, [Emit.offer toUserId ofr])
    else
      (endCall { s3 with callStatus := "Error" }, [])
  else
    (endCall { s2 with pc := none, callStatus := "Error" }, [])

/-- `handleIncomingCall` (lines 502-560): callee path after the user accepts.
Sets status `Connecting...` and clears the caller flag; assigns a fresh peer
connection to the ref (the previous one, if any, is overwritten without being
closed); applies the remote offer; acquires the microphone; adds the track;
creates and sets the local answer; emits it; sets status `Connected`.  On
failure the catch block sets status `Error` and calls `endCall`. -/
def handleIncomingCall (fromId : String) (ofr : SessionDescription)
    (mediaOk pcOk : Bool) (s : CallState) : CallState × List Emit :=
  let s1 := { s with callStatus := "Connecting...", isCaller := false }
  if pcOk then
    let p0 : PeerConnection :=
      { pcId := s1.nextPcId, signalingState := .stable,
        localDescription := none, remoteDescription := none,
        appliedCandidates := [] }
    let p1 : PeerConnection := { p0 with remoteDescription := some ofr,
                                         signalingState := .haveRemoteOffer }
    let s3 := { s1 with nextPcId := s1.nextPcId + 1, pc := some p1 }
    if mediaOk then
      let ts : List Nat := [s3.nextTrackId]
      let s4 := { s3 with nextTrackId := s3.nextTrackId + 1,
                          localAudioSrc := some ts, localStream := some ts }
      let ans : SessionDescription := ⟨p1.pcId⟩
      let p2 : PeerConnection := { p1 with localDescription := some ans,
                                           signalingState := .stable }
      ({ s4 with pc := some p2, callStatus := "Connected" },
       [Emit.answer fromId ans])
    else
      (endCall { s3 with callStatus := "Error" }, [])
  else
    (endCall { s1 with pc := none, callStatus := "Error" }, [])

/-- `handleOffer` (lines 426-434): unconditionally overwrite `remoteId` with
the sender and set status `Incoming call...`, then show `window.confirm`;
`accept` is the user's answer, and only an accept runs `handleIncomingCall`.
There is no check of an existing session and no auto-reject branch. -/
def handleOffer (fromId : String) (ofr : SessionDescription)
    (accept mediaOk pcOk : Bool) (s : CallState) : CallState × List Emit :=
  let s1 := { s with remoteId := fromId, callStatus := "Incoming call..." }
  if accept then handleIncomingCall fromId ofr mediaOk pcOk s1 else (s1, [])

/-- `handleAnswer` (lines 436-449): whenever a peer connection exists, pass
the answer to `setRemoteDescription`, which succeeds only in
have-local-offer (the caller with an outstanding offer); on success the
status becomes `Connected`, on failure the error is logged and nothing
changes.  With no peer connection nothing happens. -/
def handleAnswer (ans : SessionDescription) (s : CallState) : CallState :=
  match s.pc with
  | none => s
  | some p =>
    match p.signalingState with
    | .haveLocalOffer =>
        { s with pc := some { p with remoteDescription := some ans,
                                     signalingState := .stable },
                 callStatus := "Connected" }
    | _ => s

/-- `handleIceCandidate` (lines 451-462): when a peer connection exists and a
candidate is present, call `addIceCandidate` immediately; it succeeds only
once a remote description is set, otherwise it rejects and the code logs the
error, dropping the candidate.  There is no buffering queue anywhere. -/
def handleIceCandidate (c : Option IceCandidate) (s : CallState) : CallState :=
  match s.pc, c with
  | some p, some cand =>
      if p.remoteDescription.isSome then
        { s with pc := some { p with
            appliedCandidates := p.appliedCandidates ++ [cand] } }
      else s
  | _, _ => s

/-- `pc.oniceconnectionstatechange` (lines 243-262): record the ICE state;
`connected`/`completed` set status `Connected`; `disconnected` sets a
reconnecting status; `failed` sets status `Connection Failed` and then calls
`endCall` (whose reset overwrites the status). -/
def onIceConnectionStateChange (st : String) (s : CallState) : CallState :=
  let s1 := { s with iceState := st }
  if st = "connected" ∨ st = "completed" then
    { s1 with callStatus := "Connected" }
  else if st = "disconnected" then
    { s1 with callStatus := "Disconnected - Reconnecting..." }
  else if st = "failed" then
    endCall { s1 with callStatus := "Connection Failed" }
  else s1

/-- `pc.onicecandidate` (lines 214-228): a locally generated candidate is
forwarded to the relay only when both the candidate and `remoteId` are
present (JS truthiness: non-empty string). -/
def onIceCandidateGenerated (c : Option IceCandidate) (s : CallState) :
    Option Emit :=
  match c with
  | some cand =>
      if s.remoteId ≠ "" then some (.iceCandidate s.remoteId cand) else none
  | none => none

/-- One log entry as built by `addLog` (lines 53-58). -/
structure LogEntry where
  message : String
  ltype : String
deriving DecidableEq

/-- JavaScript `arr.slice(-n)`: the last `n` elements of the array. -/
def sliceLast (n : Nat) (l : List α) : List α :=
  l.drop (l.length - n)

/-- The effect of `addLog` on the `logs` state:
`setLogs(prev => [...prev.slice(-20), entry])`. -/
def addLogStep (logs : List LogEntry) (e : LogEntry) : List LogEntry :=
  sliceLast 20 logs ++ [e]

/-- One event-loop step: any socket, UI or RTC event, handled atomically
(the app is single-threaded; each handler runs to completion). -/
inductive Step : CallState → CallState → Prop where
  | connect (id : String) (s : CallState) : Step s (handleConnect id s)
  | offer (fromId : String) (ofr : SessionDescription)
      (accept mediaOk pcOk : Bool) (s : CallState) :
      Step s (handleOffer fromId ofr accept mediaOk pcOk s).1
  | answer (ans : SessionDescription) (s : CallState) :
      Step s (handleAnswer ans s)
  | ice (c : Option IceCandidate) (s : CallState) :
      Step s (handleIceCandidate c s)
  | iceConn (st : String) (s : CallState) :
      Step s (onIceConnectionStateChange st s)
  | start (toUserId : String) (mediaOk pcOk : Bool) (s : CallState) :
      Step s (startCall toUserId mediaOk pcOk s).1
  | hangup (s : CallState) : Step s (endCall s)

/-- States reachable from the initial component state. -/
inductive Reachable : CallState → Prop where
  | init : Reachable initState
  | step {s s' : CallState} : Reachable s → Step s s' → Reachable s'

/-- A peer connection sitting in have-local-offer can only have been created
by the caller path (`startCall`), so the caller flag is set. -/
def RoleInv (s : CallState) : Prop :=
  ∀ p : PeerConnection, s.pc = some p →
    p.signalingState = SignalingState.haveLocalOffer → s.isCaller = true

/-- The caller's Negotiating phase: a local offer is outstanding (sent, with
no answer applied yet). -/
def offerOutstanding (s : CallState) : Prop :=
  ∃ p : PeerConnection, s.pc = some p ∧
    p.signalingState = SignalingState.haveLocalOffer

/-- A concrete in-call state: the caller dialled "p" and the answer arrived. -/
def demoInCallP : CallState :=
  handleAnswer ⟨9⟩ (startCall "p" true true initState).1

/-- Claim C6: `endCall` is idempotent — running it twice in a row yields the
same terminal state as running it once, and on the already-idle initial state
it is a no-op; being a total function it never raises an error. -/
theorem endCall_idempotent :
    (∀ s : CallState, endCall (endCall s) = endCall s) ∧
    endCall initState = initState := by
  constructor
  · intro s
    simp [endCall, pcCloseIds, streamTracks]
  · rfl

/-- Claim C9: the activity log is a bounded buffer — starting from the empty
log, any sequence of `addLog` invocations leaves at most 21 entries, because
each append keeps only the most recent 20 prior entries plus the new one. -/
theorem logs_bounded :
    (∀ es : List LogEntry, (List.foldl addLogStep [] es).length ≤ 21) ∧
    (∀ (l : List LogEntry) (e : LogEntry),
      (addLogStep l e).length = min l.length 20 + 1) := by
  have hlen : ∀ (l : List LogEntry) (e : LogEntry),
      (addLogStep l e).length = min l.length 20 + 1 := by
    intro l e
    simp [addLogStep, sliceLast]
    omega
  refine ⟨?_, hlen⟩
  have key : ∀ (es start : List LogEntry),
      start.length ≤ 21 → (List.foldl addLogStep start es).length ≤ 21 := by
    intro es
    induction es with
    | nil => intro start h; simpa using h
    | cons e es ih =>
        intro start h
        simp only [List.foldl_cons]
        exact ih _ (by rw [hlen]; omega)
  exact fun es => key es [] (by simp)

/-- Claim C7: an ICE network-path failure event triggers automatic teardown
back to the idle state — the peer connection is closed and nulled, the local
stream released, `remoteId` cleared and the status reset — surfaced purely
through the status/state fields by a total handler, so a failed path never
leaves a non-idle session behind. -/
theorem ice_failure_tears_down_to_idle (s : CallState) :
    (onIceConnectionStateChange "failed" s).pc = none ∧
    (onIceConnectionStateChange "failed" s).localStream = none ∧
    (onIceConnectionStateChange "failed" s).remoteId = "" ∧
    (onIceConnectionStateChange "failed" s).callStatus = "Ready to call" ∧
    (∀ p : PeerConnection, s.pc = some p →
      p.pcId ∈ (onIceConnectionStateChange "failed" s).closedPcIds) := by
  refine ⟨?_, ?_, ?_, ?_, ?_⟩ <;>
    simp [onIceConnectionStateChange, endCall, pcCloseIds]
  intro p hp
  simp [hp]

/-- Concrete check of `ice_failure_tears_down_to_idle` on an in-call state. -/
theorem ice_failure_tears_down_to_idle_check :
    (onIceConnectionStateChange "failed" demoInCallP).pc = none ∧
    (0 : Nat) ∈ (onIceConnectionStateChange "failed" demoInCallP).closedPcIds := by
  have h := ice_failure_tears_down_to_idle demoInCallP
  exact ⟨h.1,
    h.2.2.2.2 ⟨0, SignalingState.stable, some ⟨0⟩, some ⟨9⟩, []⟩ (by decide)⟩

/-- Claim C10: a locally generated ICE candidate is emitted only when
`remoteId` is non-empty, the envelope is addressed to exactly that
`remoteId`, and with an empty `remoteId` nothing is emitted — so no
ice-candidate envelope ever carries an empty recipient. -/
theorem candidate_emitted_only_with_remote_peer (c : Option IceCandidate)
    (s : CallState) :
    (∀ e : Emit, onIceCandidateGenerated c s = some e →
      (∃ cand, e = Emit.iceCandidate s.remoteId cand) ∧ s.remoteId ≠ "") ∧
    (s.remoteId = "" → onIceCandidateGenerated c s = none) := by
  constructor
  · intro e he
    cases c with
    | none => simp [onIceCandidateGenerated] at he
    | some cand =>
        by_cases h : s.remoteId = ""
        · simp [onIceCandidateGenerated, h] at he
        · simp [onIceCandidateGenerated, h] at he
          exact ⟨⟨cand, he.symm⟩, h⟩
  · intro h
    cases c with
    | none => rfl
    | some cand => simp [onIceCandidateGenerated, h]

/-- Concrete check of `candidate_emitted_only_with_remote_peer`: with no
remote peer set, a generated candidate is silently dropped. -/
theorem candidate_emitted_only_with_remote_peer_check :
    onIceCandidateGenerated (some ⟨0⟩) initState = none :=
  (candidate_emitted_only_with_remote_peer (some ⟨0⟩) initState).2 rfl

/-- Claim C1 counterexample: in a call with "p", an inbound offer from the
different peer "q" is NOT auto-rejected — the outcome depends on the user's
`window.confirm` answer (so the user IS prompted), `remoteId` is overwritten
with "q" even when the user declines, and on accept the "p" session does not
remain (its peer connection is replaced). -/
theorem offer_while_in_call_prompts_and_mutates :
    handleOffer "q" ⟨7⟩ true true true demoInCallP ≠
      handleOffer "q" ⟨7⟩ false true true demoInCallP ∧
    (handleOffer "q" ⟨7⟩ false true true demoInCallP).1.remoteId = "q" ∧
    (handleOffer "q" ⟨7⟩ true true true demoInCallP).1.pc ≠ demoInCallP.pc := by
  decide

/-- Claim C1 (amended): while a session is active with peer `p`, an inbound
offer from a different peer `q` is not auto-rejected; the user is prompted
and the outcome follows the user's answer.  Declining leaves the existing
peer connection as the only session but still overwrites `remoteId` with `q`
(and emits nothing); accepting replaces the active session with a callee
session holding `q`'s offer.  The single `pc` slot means a second
simultaneous session is never created. -/
theorem inbound_offer_during_call_behavior (s : CallState) (p q : String)
    (ofr : SessionDescription) (_hp : s.remoteId = p) (_hq : q ≠ p) :
    (handleOffer q ofr false true true s).1.pc = s.pc ∧
    (handleOffer q ofr false true true s).1.remoteId = q ∧
    (handleOffer q ofr false true true s).2 = [] ∧
    (handleOffer q ofr true true true s).1.isCaller = false ∧
    (∃ p2, (handleOffer q ofr true true true s).1.pc = some p2 ∧
      p2.remoteDescription = some ofr) := by
  exact ⟨rfl, rfl, rfl, rfl, ⟨_, rfl, rfl⟩⟩

/-- Concrete check of `inbound_offer_during_call_behavior` on the in-call
state with peer "p" receiving an offer from "q". -/
theorem inbound_offer_during_call_behavior_check :
    (handleOffer "q" ⟨7⟩ false true true demoInCallP).1.remoteId = "q" ∧
    (handleOffer "q" ⟨7⟩ true true true demoInCallP).1.isCaller = false := by
  have h := inbound_offer_during_call_behavior demoInCallP "p" "q" ⟨7⟩
    (by decide) (by decide)
  exact ⟨h.2.1, h.2.2.2.1⟩

/-- Claim C2 counterexample: the caller has sent an offer to "b" and no
remote description is set yet; an inbound candidate is then dropped outright
(the state is unchanged — nothing is enqueued), and after the answer is
finally applied the candidate has still not been applied: it was lost to
ordering alone. -/
theorem early_candidate_dropped_not_enqueued :
    handleIceCandidate (some ⟨3⟩) (startCall "b" true true initState).1 =
      (startCall "b" true true initState).1 ∧
    (handleAnswer ⟨9⟩ (handleIceCandidate (some ⟨3⟩)
        (startCall "b" true true initState).1)).pc =
      some ⟨0, SignalingState.stable, some ⟨0⟩, some ⟨9⟩, []⟩ := by
  decide

/-- Claim C2 (amended): there is no candidate queue.  A candidate arriving
with no peer connection is dropped; a candidate arriving before the remote
description is set is passed to `addIceCandidate` immediately, whose
rejection is logged and the candidate dropped (never enqueued, never applied
later); a candidate arriving after the remote description is set is applied
immediately in arrival order. -/
theorem candidate_handling_no_queue (s : CallState) (c : IceCandidate) :
    (s.pc = none → handleIceCandidate (some c) s = s) ∧
    (∀ p : PeerConnection, s.pc = some p → p.remoteDescription = none →
      handleIceCandidate (some c) s = s) ∧
    (∀ p : PeerConnection, s.pc = some p → p.remoteDescription.isSome →
      (handleIceCandidate (some c) s).pc =
        some { p with appliedCandidates := p.appliedCandidates ++ [c] }) := by
  refine ⟨?_, ?_, ?_⟩
  · intro h; simp [handleIceCandidate, h]
  · intro p hp hrd; simp [handleIceCandidate, hp, hrd]
  · intro p hp hrd; simp [handleIceCandidate, hp, hrd]

/-- Concrete check of `candidate_handling_no_queue`: before the answer the
candidate is dropped; in the connected state it is applied immediately. -/
theorem candidate_handling_no_queue_check :
    handleIceCandidate (some ⟨4⟩) (startCall "b" true true initState).1 =
      (startCall "b" true true initState).1 ∧
    (handleIceCandidate (some ⟨4⟩) demoInCallP).pc =
      some ⟨0, SignalingState.stable, some ⟨0⟩, some ⟨9⟩, [⟨4⟩]⟩ := by
  refine ⟨(candidate_handling_no_queue (startCall "b" true true initState).1
      ⟨4⟩).2.1 ⟨0, SignalingState.haveLocalOffer, some ⟨0⟩, none, []⟩
      (by decide) (by decide), ?_⟩
  have h := (candidate_handling_no_queue demoInCallP ⟨4⟩).2.2
    ⟨0, SignalingState.stable, some ⟨0⟩, some ⟨9⟩, []⟩ (by decide) (by decide)
  exact h

/-- Claim C3 counterexample: identifiers "a" < "b"; side A (id "a") calls
"b", then B's simultaneous offer arrives (glare).  Nothing in the code
compares the identifiers: if A's user declines the confirm prompt, A remains
Caller, and only if A's user accepts does A become Callee — so the converged
roles depend on manual intervention, not only on the two identifiers. -/
theorem glare_smaller_id_stays_caller :
    ("a" < "b") ∧
    (handleOffer "b" ⟨2⟩ false true true
      (startCall "b" true true (handleConnect "a" initState)).1).1.isCaller
      = true ∧
    (handleOffer "b" ⟨2⟩ true true true
      (startCall "b" true true (handleConnect "a" initState)).1).1.isCaller
      = false := by
  refine ⟨?_, by decide, by decide⟩
  rw [String.lt_iff_toList_lt]
  decide

/-- Claim C3 (amended): no identifier-based glare resolution exists.  When a
local outgoing call races an inbound offer from the same peer, the local
side is prompted; accepting makes it Callee, declining leaves it Caller —
the outcome is decided by each user's confirm answer, not by lexicographic
order of the identifiers, so the two sides need not converge. -/
theorem glare_outcome_depends_on_confirm (s : CallState) (b : String)
    (ofr : SessionDescription) (hc : s.isCaller = true) (_hb : s.remoteId = b) :
    (handleOffer b ofr true true true s).1.isCaller = false ∧
    (handleOffer b ofr false true true s).1.isCaller = true := by
  exact ⟨rfl, hc⟩

/-- Concrete check of `glare_outcome_depends_on_confirm` in the glare state
of caller "a" dialling "b". -/
theorem glare_outcome_depends_on_confirm_check :
    (handleOffer "b" ⟨2⟩ true true true
      (startCall "b" true true (handleConnect "a" initState)).1).1.isCaller
      = false := by
  have h := glare_outcome_depends_on_confirm
    (startCall "b" true true (handleConnect "a" initState)).1 "b" ⟨2⟩
    (by decide) (by decide)
  exact h.1

/-- Claim C4 counterexample: in a call with "p" (peer connection 0 active),
`startCall "q"` does not fail with any AlreadyInCall error — it proceeds:
the active connection is closed (teardown is performed), a fresh offer is
emitted to "q", and the session is replaced. -/
theorem startCall_while_active_proceeds :
    (startCall "q" true true demoInCallP).2 = [Emit.offer "q" ⟨1⟩] ∧
    (startCall "q" true true demoInCallP).1.remoteId = "q" ∧
    (startCall "q" true true demoInCallP).1.isCaller = true ∧
    0 ∈ (startCall "q" true true demoInCallP).1.closedPcIds := by
  decide

/-- Claim C4 (amended): with a session active, `startCall q` does not fail —
there is no AlreadyInCall error anywhere in the code.  It closes the
existing peer connection, proceeds as Caller toward `q`, installs a fresh
connection with an outstanding local offer and emits that offer. -/
theorem startCall_replaces_active_session (s : CallState)
    (p : PeerConnection) (q : String) (hp : s.pc = some p) :
    (startCall q true true s).1.remoteId = q ∧
    (startCall q true true s).1.isCaller = true ∧
    p.pcId ∈ (startCall q true true s).1.closedPcIds ∧
    (∃ ofr, (startCall q true true s).2 = [Emit.offer q ofr]) ∧
    (∃ p2, (startCall q true true s).1.pc = some p2 ∧
      p2.signalingState = SignalingState.haveLocalOffer) := by
  refine ⟨rfl, rfl, ?_, ⟨_, rfl⟩, ⟨_, rfl, rfl⟩⟩
  simp [startCall, pcCloseIds, hp]

/-- Concrete check of `startCall_replaces_active_session` on the in-call
state with peer "p". -/
theorem startCall_replaces_active_session_check :
    (startCall "q" true true demoInCallP).1.isCaller = true ∧
    0 ∈ (startCall "q" true true demoInCallP).1.closedPcIds := by
  have h := startCall_replaces_active_session demoInCallP
    ⟨0, SignalingState.stable, some ⟨0⟩, some ⟨9⟩, []⟩ "q" (by decide)
  exact ⟨h.2.1, h.2.2.1⟩

/-- After `endCall` there is no peer connection, so the role invariant holds. -/
theorem roleInv_endCall (s : CallState) : RoleInv (endCall s) := by
  intro p hp
  simp [endCall] at hp

/-- `startCall` establishes the role invariant: either it succeeds with the
caller flag set, or it falls back to `endCall`. -/
theorem roleInv_startCall (toUserId : String) (mediaOk pcOk : Bool)
    (s : CallState) : RoleInv (startCall toUserId mediaOk pcOk s).1 := by
  cases pcOk with
  | false => exact roleInv_endCall _
  | true =>
      cases mediaOk with
      | false => exact roleInv_endCall _
      | true => intro p hp hsig; rfl

/-- `handleIncomingCall` never leaves a connection in have-local-offer: on
success the callee connection ends `stable`, on failure it ends via
`endCall`. -/
theorem roleInv_handleIncomingCall (fromId : String) (ofr : SessionDescription)
    (mediaOk pcOk : Bool) (s : CallState) :
    RoleInv (handleIncomingCall fromId ofr mediaOk pcOk s).1 := by
  cases pcOk with
  | false => exact roleInv_endCall _
  | true =>
      cases mediaOk with
      | false => exact roleInv_endCall _
      | true =>
          intro p hp hsig
          have hpc : (handleIncomingCall fromId ofr true true s).1.pc
              = some { pcId := s.nextPcId, signalingState := .stable,
                       localDescription := some ⟨s.nextPcId⟩,
                       remoteDescription := some ofr,
                       appliedCandidates := [] } := rfl
          rw [hpc] at hp
          injection hp with hp
          rw [← hp] at hsig
          simp at hsig

/-- `handleOffer` preserves the role invariant. -/
theorem roleInv_handleOffer (fromId : String) (ofr : SessionDescription)
    (accept mediaOk pcOk : Bool) (s : CallState) (h : RoleInv s) :
    RoleInv (handleOffer fromId ofr accept mediaOk pcOk s).1 := by
  cases accept with
  | true => exact roleInv_handleIncomingCall fromId ofr mediaOk pcOk _
  | false => exact fun p hp hsig => h p hp hsig

/-- `handleAnswer` preserves the role invariant. -/
theorem roleInv_handleAnswer (ans : SessionDescription) (s : CallState)
    (h : RoleInv s) : RoleInv (handleAnswer ans s) := by
  cases hpc : s.pc with
  | none => simpa [handleAnswer, hpc] using h
  | some p =>
      cases hsig : p.signalingState with
      | haveLocalOffer =>
          intro p2 hp2 hsig2
          have hcaller := h p hpc hsig
          simpa [handleAnswer, hpc, hsig] using hcaller
      | stable => simpa [handleAnswer, hpc, hsig] using h
      | haveRemoteOffer => simpa [handleAnswer, hpc, hsig] using h

/-- `handleIceCandidate` preserves the role invariant. -/
theorem roleInv_handleIceCandidate (c : Option IceCandidate) (s : CallState)
    (h : RoleInv s) : RoleInv (handleIceCandidate c s) := by
  cases hc : c with
  | none =>
      cases hpc : s.pc with
      | none => simpa [handleIceCandidate, hpc] using h
      | some p => simpa [handleIceCandidate, hpc] using h
  | some cand =>
      cases hpc : s.pc with
      | none => simpa [handleIceCandidate, hpc] using h
      | some p =>
          by_cases hrd : p.remoteDescription.isSome
          · intro p2 hp2 hsig2
            simp [handleIceCandidate, hpc, hrd] at hp2
            have hsig : p.signalingState = SignalingState.haveLocalOffer := by
              rw [← hp2] at hsig2
              simpa using hsig2
            have hcaller := h p hpc hsig
            simpa [handleIceCandidate, hpc, hrd] using hcaller
          · simpa [handleIceCandidate, hpc, hrd] using h

/-- `oniceconnectionstatechange` preserves the role invariant. -/
theorem roleInv_onIceConnectionStateChange (st : String) (s : CallState)
    (h : RoleInv s) : RoleInv (onIceConnectionStateChange st s) := by
  unfold onIceConnectionStateChange
  split
  · exact fun p hp hsig => h p hp hsig
  · split
    · exact fun p hp hsig => h p hp hsig
    · split
      · exact roleInv_endCall _
      · exact fun p hp hsig => h p hp hsig

/-- Every event-loop step preserves the role invariant. -/
theorem step_roleInv {s s2 : CallState} (hstep : Step s s2) (h : RoleInv s) :
    RoleInv s2 := by
  cases hstep with
  | connect id s3 => exact fun p hp hsig => h p hp hsig
  | offer fromId ofr accept mediaOk pcOk s3 =>
      exact roleInv_handleOffer _ _ _ _ _ _ h
  | answer ans s3 => exact roleInv_handleAnswer _ _ h
  | ice c s3 => exact roleInv_handleIceCandidate _ _ h
  | iceConn st s3 => exact roleInv_onIceConnectionStateChange _ _ h
  | start toUserId mediaOk pcOk s3 => exact roleInv_startCall _ _ _ _
  | hangup s3 => exact roleInv_endCall _

/-- Every reachable state satisfies the role invariant: a peer connection
holding an outstanding local offer belongs to a caller-path session. -/
theorem reachable_roleInv {s : CallState} (h : Reachable s) : RoleInv s := by
  induction h with
  | init => intro p hp _hsig; simp [initState] at hp
  | step _ hstep ih => exact step_roleInv hstep ih

/-- Claim C5: in every reachable state, an inbound answer is applied exactly
when a local offer is outstanding — which, by `reachable_roleInv`, happens
only with role Caller (the caller's Negotiating phase) — making the
connection stable and the status `Connected`; in every other state (no
session, role Callee, or any other phase) the answer is discarded and the
session state is left unchanged. -/
theorem answer_applied_only_when_caller_negotiating (s : CallState)
    (hs : Reachable s) (ans : SessionDescription) :
    (offerOutstanding s → s.isCaller = true ∧
      ∃ p, s.pc = some p ∧
        handleAnswer ans s =
          { s with pc := some { p with remoteDescription := some ans,
                                       signalingState := .stable },
                   callStatus := "Connected" }) ∧
    (¬ offerOutstanding s → handleAnswer ans s = s) := by
  constructor
  · rintro ⟨p, hp, hsig⟩
    refine ⟨reachable_roleInv hs p hp hsig, p, hp, ?_⟩
    simp [handleAnswer, hp, hsig]
  · intro hno
    cases hpc : s.pc with
    | none => simp [handleAnswer, hpc]
    | some p =>
        cases hsg : p.signalingState with
        | haveLocalOffer => exact absurd ⟨p, hpc, hsg⟩ hno
        | stable => simp [handleAnswer, hpc, hsg]
        | haveRemoteOffer => simp [handleAnswer, hpc, hsg]

/-- Concrete check of `answer_applied_only_when_caller_negotiating`: right
after `startCall "b"` (a reachable state with an outstanding offer), an
inbound answer is applied and the status becomes `Connected`. -/
theorem answer_applied_only_when_caller_negotiating_check :
    (handleAnswer ⟨5⟩ (startCall "b" true true initState).1).callStatus
      = "Connected" := by
  have hr : Reachable (startCall "b" true true initState).1 :=
    Reachable.step Reachable.init (Step.start "b" true true initState)
  have h := (answer_applied_only_when_caller_negotiating _ hr ⟨5⟩).1
    ⟨⟨0, SignalingState.haveLocalOffer, some ⟨0⟩, none, []⟩, by decide, rfl⟩
  obtain ⟨-, p, -, heq⟩ := h
  rw [heq]

/-- Claim C8: every exit path of a session — explicit `endCall`, an error
during `startCall` (media acquisition fails), an error while answering an
accepted incoming call (media acquisition fails), and ICE network-path
failure — releases the local media stream: afterwards every track the
stream held is stopped and the stream ref is null. -/
theorem teardown_releases_local_stream (s : CallState) (ts : List Nat)
    (h : s.localStream = some ts) :
    ((endCall s).localStream = none ∧
      ∀ t ∈ ts, t ∈ (endCall s).stoppedTracks) ∧
    (∀ q, (startCall q false true s).1.localStream = none ∧
      ∀ t ∈ ts, t ∈ (startCall q false true s).1.stoppedTracks) ∧
    (∀ fromId ofr,
      (handleOffer fromId ofr true false true s).1.localStream = none ∧
      ∀ t ∈ ts, t ∈ (handleOffer fromId ofr true false true s).1.stoppedTracks) ∧
    ((onIceConnectionStateChange "failed" s).localStream = none ∧
      ∀ t ∈ ts, t ∈ (onIceConnectionStateChange "failed" s).stoppedTracks) := by
  refine ⟨⟨rfl, ?_⟩, fun q => ⟨rfl, ?_⟩, fun fromId ofr => ⟨rfl, ?_⟩, ?_, ?_⟩
  · intro t ht
    simp [endCall, streamTracks, h]
    exact Or.inr ht
  · intro t ht
    simp [startCall, endCall, streamTracks, pcCloseIds, h]
    exact Or.inr ht
  · intro t ht
    simp [handleOffer, handleIncomingCall, endCall, streamTracks, h]
    exact Or.inr ht
  · simp [onIceConnectionStateChange, endCall]
  · intro t ht
    simp [onIceConnectionStateChange, endCall, streamTracks, h]
    exact Or.inr ht

/-- Concrete check of `teardown_releases_local_stream` on the in-call state:
`endCall` nulls the stream ref and stops its track. -/
theorem teardown_releases_local_stream_check :
    (endCall demoInCallP).localStream = none ∧
    0 ∈ (endCall demoInCallP).stoppedTracks := by
  have h := teardown_releases_local_stream demoInCallP [0] (by decide)
  exact ⟨h.1.1, h.1.2 0 (by simp)⟩

end Telephony
